import Mathlib

/-!
Verification development for `vt_keyword_watcher.py`, the resilient
extraction and change-detection engine of a seat-availability watcher.

The source is shallowly embedded: pure text processing (the regex-based
availability parser) is translated into executable Lean functions over
`List Char`, with Python `re.search` semantics (leftmost match, greedy
`\d+`/`\s*`, lazy `.{0,40}?`, ordered alternation, word boundaries)
hand-compiled per pattern; the monitor loop is modelled as explicit state
passing over a last-seen association list, with browser queries and
notification dispatch supplied by an environment, and exceptions as
`Except`.  Character classes are modelled over ASCII.
-/

/-! ## Python string primitives -/

/-- Python `str.lower()` applied characterwise (ASCII model). -/
def pyLowerL (l : List Char) : List Char := l.map Char.toLower

/-- Python substring test `sub in t` on character lists (empty `sub` is in
everything, as in Python). -/
def pyInL (sub : List Char) : List Char → Bool
  | [] => sub.isEmpty
  | c :: t => sub.isPrefixOf (c :: t) || pyInL sub t

/-- Characters matched by Python regex `\s` (ASCII model). -/
def isPySpace (c : Char) : Bool :=
  c = ' ' || c = '\t' || c = '\n' || c = '\r' || c.toNat = 11 || c.toNat = 12

/-- Characters matched by Python regex `\w` (ASCII model), used for `\b`. -/
def isWordChar (c : Char) : Bool := c.isAlphanum || c = '_'

/-- Greedy `\d+`/`\d*`: split off the maximal leading run of digits. -/
def munchDigits : List Char → List Char × List Char
  | [] => ([], [])
  | c :: t =>
    if c.isDigit then
      let r := munchDigits t
      (c :: r.1, r.2)
    else ([], c :: t)

/-- Greedy `\s*`: drop the maximal leading run of whitespace. -/
def skipSpaces : List Char → List Char
  | [] => []
  | c :: t => if isPySpace c then skipSpaces t else c :: t

/-- Match a literal word at the current position, returning the rest. -/
def stripLit : List Char → List Char → Option (List Char)
  | [], rest => some rest
  | _ :: _, [] => none
  | a :: cs, b :: bs => if a = b then stripLit cs bs else none

/-- Numeric value of a digit string, as Python `int` of the capture. -/
def natOfDigits (ds : List Char) : Nat :=
  ds.foldl (fun acc c => 10 * acc + (c.toNat - 48)) 0

/-- Python `re.search`: try the matcher at each position from the left and
return the first success.  The matcher receives the preceding character so
that `\b` can be decided. -/
def searchAux (m : Option Char → List Char → Option Nat) (prev : Option Char)
    (l : List Char) : Option Nat :=
  match m prev l with
  | some r => some r
  | none =>
    match l with
    | [] => none
    | c :: rest => searchAux m (some c) rest

/-! ## The availability patterns of `vt_keyword_watcher.py`

`RGX_OF_SEATS  = (\d+)\s*of\s*(\d+)\s*seats`
`RGX_SEATS_KV  = [seats\s*(available|remaining)\s*[:\-]?\s*(\d+),`
`                 \bremaining\s*[:\-]?\s*(\d+), \bavailable\s*[:\-]?\s*(\d+)]`
`RGX_CAP_ENR_REM = (capacity|cap)\s*[:\-]?\s*(\d+).{0,40}?(enrolled|enr)`
`                  \s*[:\-]?\s*(\d+).{0,40}?(remaining|rem)\s*[:\-]?\s*(\d+)`

All are applied to the lowercased blob, so the `re.I` flags are inert in
the ASCII model.  In every pattern the greedy `\d+`/`\s*` can be taken
maximally without backtracking: handing characters back would force a
letter of the following literal to match a digit or a space, which is
impossible, and in the capacity pattern it would only lengthen the lazy
gap while the gap targets start with letters that cannot sit inside a
digit run. -/

/-- Shared suffix `\s*[:\-]?\s*(\d+)` of the keyword patterns: greedy
spaces, one optional `:` or `-`, greedy spaces, then a mandatory digit
capture.  Returns the capture and the rest of the input. -/
def punctDigits (l : List Char) : Option (Nat × List Char) :=
  let r1 := skipSpaces l
  let r2 :=
    match r1 with
    | c :: t => if c = ':' || c = '-' then t else r1
    | [] => r1
  match munchDigits (skipSpaces r2) with
  | ([], _) => none
  | (ds, rest) => some (natOfDigits ds, rest)

/-- `(\d+)\s*of\s*(\d+)\s*seats` anchored at the current position; returns
the first capture as `int(m.group(1))` does. -/
def matchOfSeatsAt (l : List Char) : Option Nat :=
  match munchDigits l with
  | ([], _) => none
  | (d1, r1) =>
    match stripLit "of".data (skipSpaces r1) with
    | none => none
    | some r2 =>
      match munchDigits (skipSpaces r2) with
      | ([], _) => none
      | (_, r3) =>
        match stripLit "seats".data (skipSpaces r3) with
        | none => none
        | some _ => some (natOfDigits d1)

/-- Search for `RGX_OF_SEATS`. -/
def searchOfSeats (l : List Char) : Option Nat :=
  searchAux (fun _ s => matchOfSeatsAt s) none l

/-- `seats\s*(available|remaining)\s*[:\-]?\s*(\d+)` at the current
position.  The alternatives start with distinct letters, so at most one
can apply.  The loop over `m2.groups()[::-1]` in the source always picks
the digit capture, which is what is returned here. -/
def matchKV1At (l : List Char) : Option Nat :=
  match stripLit "seats".data l with
  | none => none
  | some r1 =>
    let r2 := skipSpaces r1
    match stripLit "available".data r2 with
    | some r3 => (punctDigits r3).map (fun p => p.1)
    | none =>
      match stripLit "remaining".data r2 with
      | some r3 => (punctDigits r3).map (fun p => p.1)
      | none => none

/-- `\bremaining\s*[:\-]?\s*(\d+)` at the current position; the boundary
holds exactly when the preceding character is absent or not a word
character, since `r` is a word character. -/
def matchKV2At (prev : Option Char) (l : List Char) : Option Nat :=
  if (match prev with | none => true | some p => !isWordChar p) then
    match stripLit "remaining".data l with
    | none => none
    | some r1 => (punctDigits r1).map (fun p => p.1)
  else none

/-- `\bavailable\s*[:\-]?\s*(\d+)` at the current position. -/
def matchKV3At (prev : Option Char) (l : List Char) : Option Nat :=
  if (match prev with | none => true | some p => !isWordChar p) then
    match stripLit "available".data l with
    | none => none
    | some r1 => (punctDigits r1).map (fun p => p.1)
  else none

/-- The `for rgx in RGX_SEATS_KV` loop: the three keyword patterns are
searched in their list order and the first match wins. -/
def searchSeatsKV (l : List Char) : Option Nat :=
  match searchAux (fun _ s => matchKV1At s) none l with
  | some n => some n
  | none =>
    match searchAux matchKV2At none l with
    | some n => some n
    | none => searchAux matchKV3At none l

/-- Ordered alternation `(w1|w2)` with continuation `k`: the engine tries
`w1` with the whole rest of the pattern before falling back to `w2`. -/
def altWordThen (w1 w2 : List Char) (k : List Char → Option Nat)
    (l : List Char) : Option Nat :=
  match stripLit w1 l with
  | some r =>
    match k r with
    | some v => some v
    | none =>
      match stripLit w2 l with
      | some r2 => k r2
      | none => none
  | none =>
    match stripLit w2 l with
    | some r2 => k r2
    | none => none

/-- First success of `f` over a list of gap lengths, in order. -/
def firstSomeList (f : Nat → Option Nat) : List Nat → Option Nat
  | [] => none
  | g :: gs =>
    match f g with
    | some v => some v
    | none => firstSomeList f gs

/-- Lazy bounded gap `.{0,40}?` under `re.S`: try consuming 0, 1, ..., 40
arbitrary characters, running the continuation after each, and keep the
first success. -/
def gapThen (k : List Char → Option Nat) (l : List Char) : Option Nat :=
  firstSomeList (fun g => if g ≤ l.length then k (l.drop g) else none)
    (List.range 41)

/-- `RGX_CAP_ENR_REM` at the current position; returns `int(m.group(6))`,
the final remaining-count capture. -/
def matchCERAt (l : List Char) : Option Nat :=
  altWordThen "capacity".data "cap".data (fun r1 =>
    match punctDigits r1 with
    | none => none
    | some (_, r2) =>
      gapThen (fun r3 =>
        altWordThen "enrolled".data "enr".data (fun r4 =>
          match punctDigits r4 with
          | none => none
          | some (_, r5) =>
            gapThen (fun r6 =>
              altWordThen "remaining".data "rem".data (fun r7 =>
                (punctDigits r7).map (fun p => p.1)) r6) r5) r3) r2) l

/-- Search for `RGX_CAP_ENR_REM`. -/
def searchCER (l : List Char) : Option Nat :=
  searchAux (fun _ s => matchCERAt s) none l

/-! ## The Availability Parser -/

/-- Body of `parse_seats_from_any_text` after `t = (text or "").lower()`:
the prioritized cascade over the lowercased blob `t`.  Rule order is that
of the source: of-seats, the keyword patterns, capacity/enrolled/remaining,
then the literal fallbacks, else `None`. -/
def parseLowered (t : List Char) : Option Int :=
  match searchOfSeats t with
  | some n => some (n : Int)
  | none =>
    match searchSeatsKV t with
    | some n => some (n : Int)
    | none =>
      match searchCER t with
      | some n => some (n : Int)
      | none =>
        if pyInL "full".data t || pyInL "closed".data t then some 0
        else if pyInL "open".data t then some 1
        else none

/-- `parse_seats_from_any_text(text)` of the source: lowercase, then run
the cascade. -/
def parse_seats_from_any_text (text : String) : Option Int :=
  parseLowered (pyLowerL text.data)

/-! ## Query Executor: the row scan of `check_one_crn`

A result row is represented by the text the harvester produces for it:
`rowText` is `text_plus_attrs(row)`, `tdTexts` the harvested cells,
`badgeTexts` the harvested status badges.  The harvester itself only
performs driver attribute reads, so its output is environment data here. -/

structure Row where
  rowText : String
  tdTexts : List String
  badgeTexts : List String
deriving DecidableEq

/-- `parse_row_seats`: join the non-empty harvested fragments with
a pipe separator and parse the blob; both branches of the source return
the same pair `(seats, blob)`. -/
def parse_row_seats (row : Row) : Option Int × String :=
  let raw_parts := row.rowText :: (row.tdTexts ++ row.badgeTexts)
  let blob := String.intercalate " | " (raw_parts.filter (fun p => p != ""))
  (parse_seats_from_any_text blob, blob)

/-- Lines 341-346 of `check_one_crn`: scan the rows in document order,
return the parse of the first row whose lowercased harvested text contains
the lowercased identifier, and `(None, "")` when no row matches. -/
def check_one_crn (rows : List Row) (crn : String) : Option Int × String :=
  match rows with
  | [] => (none, "")
  | row :: rest =>
    if pyInL (pyLowerL crn.data) (pyLowerL row.rowText.data) then
      parse_row_seats row
    else check_one_crn rest crn

/-! ## Overlay Clearer

The page state carries the obstructions `clear_overlays` looks for: the
presence of an inactivity-dialog dismiss button, the number of visible OK
controls, and the `style` attribute of each shim element.  Activating a
dismiss or OK control removes it from the page (the modelled page
reaction to the click); hiding a shim rewrites its style attribute in
place, exactly as the scripted `setProperty` calls do. -/

structure PageState where
  inactivityNoPresent : Bool
  okButtons : Nat
  shimStyles : List String
deriving DecidableEq

/-- Test `"display: none" in style.lower()` of the source. -/
def shimHidden (style : String) : Bool :=
  pyInL "display: none".data (pyLowerL style.data)

/-- Style attribute after `setProperty('display','none','important')` and
`setProperty('pointer-events','none','important')`. -/
def hideShim (style : String) : String :=
  style ++ "; display: none !important; pointer-events: none !important"

/-- Per-shim action of the third block: skip shims already hidden, hide
the rest. -/
def hideIfNeeded (style : String) : String :=
  if shimHidden style then style else hideShim style

/-- `clear_overlays`: dismiss the inactivity dialog if present, activate
every visible OK control, hide every shim not already hidden; report
whether any state was changed. -/
def clear_overlays (s : PageState) : Bool × PageState :=
  let changed1 := s.inactivityNoPresent
  let s1 : PageState := { s with inactivityNoPresent := false }
  let changed2 := s1.okButtons != 0
  let s2 : PageState := { s1 with okButtons := 0 }
  let changed3 := s2.shimStyles.any (fun st => !shimHidden st)
  let s3 : PageState := { s2 with shimStyles := s2.shimStyles.map hideIfNeeded }
  (changed1 || changed2 || changed3, s3)

/-- A page with no remaining obstructions: no inactivity dismiss control,
no visible OK control, no shim whose style lacks `display: none`. -/
def noObstructions (s : PageState) : Bool :=
  !s.inactivityNoPresent && s.okButtons == 0 && s.shimStyles.all shimHidden

/-! ## Monitor Loop

`main` keeps `last_seen`, a dict from identifier to the last reading,
modelled as an insertion-ordered association list.  One cycle of the
`while True:` loop runs the body of `for crn in cfg.crns:` once per
identifier.  The environment supplies, per identifier, the outcome of
`check_one_crn` (a reading, or a raised locator/interaction error) and
whether each notification dispatcher raises.  Observable actions are
recorded as events. -/

structure Config where
  crns : List String
  poll_seconds : Int
  max_errors_before_restart : Int
  keep_page_awake_minutes : Int
  notify_repeat : Bool
deriving DecidableEq

abbrev LastSeen := List (String × Option Int)

/-- Python `last_seen.get(crn)`: the stored value, `None` when absent. -/
def dictGet (d : LastSeen) (k : String) : Option Int :=
  match d with
  | [] => none
  | p :: t => if p.1 == k then p.2 else dictGet t k

/-- Python `last_seen[crn] = seats`: update in place, append when new. -/
def dictSet (d : LastSeen) (k : String) (v : Option Int) : LastSeen :=
  match d with
  | [] => [(k, v)]
  | p :: t => if p.1 == k then (k, v) :: t else p :: dictSet t k v

/-- `last_seen = {c: None for c in cfg.crns}`. -/
def initLastSeen (crns : List String) : LastSeen :=
  crns.map (fun c => (c, none))

/-- Line 390: `seats is not None and seats > 0 and (cfg.notify_repeat or
prev is None or prev <= 0)`, with Python short-circuiting. -/
def shouldNotify (repeatMode : Bool) (prev seats : Option Int) : Bool :=
  match seats with
  | none => false
  | some s =>
    decide (0 < s) &&
      (repeatMode ||
        (match prev with
         | none => true
         | some p => decide (p ≤ 0)))

inductive Event where
  | query (crn : String) (reading : Option Int)
  | notify (crn : String)
  | emailOk (crn : String)
  | emailFail (crn : String)
  | toastOk (crn : String)
  | toastFail (crn : String)
  | sleep (seconds : Int)
deriving DecidableEq

/-- Environment for one identifier in one cycle: the `check_one_crn`
outcome and whether each dispatcher raises. -/
structure CrnEnv where
  query : Except Unit (Option Int × String)
  emailFails : Bool
  toastFails : Bool

/-- Body of `for crn in cfg.crns:` (lines 384-403).  A raised extraction
error propagates: the source has no handler here, so nothing is printed,
stored or slept.  On a reading, the notification decision of line 390 is
taken, dispatch failures are caught where the source catches them, the
reading is stored, and the poll-interval sleep of line 403 runs. -/
def crnStep (cfg : Config) (env : CrnEnv) (ls : LastSeen) (crn : String) :
    List Event × Except Unit LastSeen :=
  match env.query with
  | Except.error e => ([], Except.error e)
  | Except.ok (seats, _raw) =>
    let prev := dictGet ls crn
    let doNotify := shouldNotify cfg.notify_repeat prev seats
    let notifyEvs :=
      if doNotify then
        Event.notify crn ::
          ((if env.emailFails then [Event.emailFail crn] else [Event.emailOk crn]) ++
           (if env.toastFails then [Event.toastFail crn] else [Event.toastOk crn]))
      else []
    (Event.query crn seats :: (notifyEvs ++ [Event.sleep cfg.poll_seconds]),
     Except.ok (dictSet ls crn seats))

/-- The `for crn in crns:` loop: identifiers processed left to right; an
uncaught exception from one step aborts the remainder of the cycle. -/
def runCrns (cfg : Config) (env : String → CrnEnv) (ls : LastSeen)
    (crns : List String) : List Event × Except Unit LastSeen :=
  match crns with
  | [] => ([], Except.ok ls)
  | c :: rest =>
    match crnStep cfg (env c) ls c with
    | (evs, Except.error u) => (evs, Except.error u)
    | (evs, Except.ok ls') =>
      let r2 := runCrns cfg env ls' rest
      (evs ++ r2.1, r2.2)

/-- One iteration of `while True:`: the whole `for` loop over
`cfg.crns`. -/
def runCycle (cfg : Config) (env : String → CrnEnv) (ls : LastSeen) :
    List Event × Except Unit LastSeen :=
  runCrns cfg env ls cfg.crns

/-- Several iterations of the monitor loop; an escaped exception ends the
run (the source lets it fall through to the `finally:` block and out of
`main`). -/
def runCycles (cfg : Config) (envs : Nat → String → CrnEnv) (n : Nat)
    (ls : LastSeen) : Except Unit LastSeen :=
  match n with
  | 0 => Except.ok ls
  | m + 1 =>
    match (runCycle cfg (envs m) ls).2 with
    | Except.error u => Except.error u
    | Except.ok ls' => runCycles cfg envs m ls'

/-- Discriminator for sleep events. -/
def isSleepEvent : Event → Bool
  | Event.sleep _ => true
  | _ => false

/-- Number of poll-interval sleeps in a trace. -/
def countSleeps (evs : List Event) : Nat := evs.countP isSleepEvent

/-- Readings that are `None` or a non-negative count. -/
def readingNonnegB : Option Int → Bool
  | none => true
  | some v => decide (0 ≤ v)

/-- Every value stored in the last-seen map is `None` or non-negative. -/
def stateNonnegB (ls : LastSeen) : Bool :=
  ls.all (fun p => readingNonnegB p.2)

/-- A query outcome that the real program can produce: either a raised
extraction error or the result of the row scan on some row list. -/
def queryFromRows (q : Except Unit (Option Int × String)) (crn : String) : Prop :=
  q = Except.error () ∨ ∃ rows, q = Except.ok (check_one_crn rows crn)

/-! ## Helper lemmas -/

lemma shouldNotify_eq_true_iff (r : Bool) (prev seats : Option Int) :
    shouldNotify r prev seats = true ↔
      ∃ s, seats = some s ∧ 0 < s ∧
        (r = true ∨ prev = none ∨ ∃ p, prev = some p ∧ p ≤ 0) := by
  cases seats with
  | none => simp [shouldNotify]
  | some s =>
    cases prev with
    | none => simp [shouldNotify]
    | some p => simp [shouldNotify]

lemma crnStep_ok (cfg : Config) (env : CrnEnv) (ls : LastSeen) (crn : String)
    (seats : Option Int) (raw : String) (hq : env.query = Except.ok (seats, raw)) :
    crnStep cfg env ls crn =
      (Event.query crn seats ::
        ((if shouldNotify cfg.notify_repeat (dictGet ls crn) seats then
            Event.notify crn ::
              ((if env.emailFails then [Event.emailFail crn] else [Event.emailOk crn]) ++
               (if env.toastFails then [Event.toastFail crn] else [Event.toastOk crn]))
          else []) ++ [Event.sleep cfg.poll_seconds]),
       Except.ok (dictSet ls crn seats)) := by
  unfold crnStep
  rw [hq]

lemma countSleeps_crnStep_ok (cfg : Config) (env : CrnEnv) (ls : LastSeen)
    (crn : String) (seats : Option Int) (raw : String)
    (hq : env.query = Except.ok (seats, raw)) :
    countSleeps (crnStep cfg env ls crn).1 = 1 := by
  rw [crnStep_ok cfg env ls crn seats raw hq]
  cases h : shouldNotify cfg.notify_repeat (dictGet ls crn) seats <;>
    cases env.emailFails <;> cases env.toastFails <;>
      simp [countSleeps, List.countP_cons, List.countP_append, isSleepEvent]

/-! ## Concrete fixtures for witnesses and counterexamples -/

def cfgW : Config :=
  { crns := ["302"], poll_seconds := 60, max_errors_before_restart := 8,
    keep_page_awake_minutes := 10, notify_repeat := false }

def envW : CrnEnv :=
  { query := Except.ok (some 3, "3 of 5 seats"), emailFails := false, toastFails := false }

def lsW : LastSeen := [("302", none)]

def cfgC2 : Config :=
  { crns := ["11111", "22222"], poll_seconds := 60, max_errors_before_restart := 8,
    keep_page_awake_minutes := 10, notify_repeat := false }

def envC2 : String → CrnEnv := fun c =>
  if c == "11111" then
    { query := Except.error (), emailFails := false, toastFails := false }
  else
    { query := Except.ok (some 5, "5 of 10 seats"), emailFails := false, toastFails := false }

def cfgC3 : Config :=
  { crns := ["17583", "84113"], poll_seconds := 60, max_errors_before_restart := 8,
    keep_page_awake_minutes := 10, notify_repeat := false }

def envC3 : String → CrnEnv := fun _ =>
  { query := Except.ok (some 0, "0 of 30 seats"), emailFails := false, toastFails := false }

/-! ## Claims -/

/-- C1: for every tracked identifier and every poll, a notification fires
if and only if the fresh reading is a determined count greater than 0 and
the previously stored value is `None` or at most 0 or repeat-notification
mode is configured; readings of `None` or 0 never fire, and the stored
value becomes the new reading in every case. -/
theorem C1_notify_iff_transition (cfg : Config) (env : CrnEnv) (ls : LastSeen)
    (crn : String) (seats : Option Int) (raw : String)
    (hq : env.query = Except.ok (seats, raw)) :
    (crnStep cfg env ls crn).2 = Except.ok (dictSet ls crn seats) ∧
    (Event.notify crn ∈ (crnStep cfg env ls crn).1 ↔
      ∃ s, seats = some s ∧ 0 < s ∧
        (cfg.notify_repeat = true ∨ dictGet ls crn = none ∨
          ∃ p, dictGet ls crn = some p ∧ p ≤ 0)) := by
  rw [crnStep_ok cfg env ls crn seats raw hq]
  refine ⟨rfl, ?_⟩
  rw [← shouldNotify_eq_true_iff cfg.notify_repeat (dictGet ls crn) seats]
  cases h : shouldNotify cfg.notify_repeat (dictGet ls crn) seats <;>
    cases env.emailFails <;> cases env.toastFails <;> simp

theorem C1_witness :
    (crnStep cfgW envW lsW "302").2 = Except.ok [("302", some (3 : Int))] ∧
    Event.notify "302" ∈ (crnStep cfgW envW lsW "302").1 := by
  have h := C1_notify_iff_transition cfgW envW lsW "302" (some 3) "3 of 5 seats" rfl
  exact ⟨h.1, h.2.mpr ⟨3, rfl, by decide, Or.inr (Or.inl rfl)⟩⟩

/-- C2: the monitor loop has no handler around the per-identifier query;
at the failing input below the first identifier's extraction error aborts
the whole cycle with an empty trace, so the second identifier is never
queried, contradicting the claimed isolation. -/
theorem C2_failure_aborts_cycle :
    runCycle cfgC2 envC2 (initLastSeen cfgC2.crns) = ([], Except.error ()) := rfl

/-- C3 counterexample: with two tracked identifiers and determined
readings, one cycle emits a poll-interval sleep after each identifier —
two sleeps, one of them between the two queries — not exactly one sleep
after the whole cycle. -/
theorem C3_counterexample :
    (runCycle cfgC3 envC3 (initLastSeen cfgC3.crns)).1 =
      [Event.query "17583" (some 0), Event.sleep 60,
       Event.query "84113" (some 0), Event.sleep 60] ∧
    countSleeps (runCycle cfgC3 envC3 (initLastSeen cfgC3.crns)).1 = 2 ∧
    (2 : Nat) ≠ 1 := ⟨rfl, rfl, by decide⟩

/-- C3 as amended: identifiers are processed in configured order, but the
poll-interval sleep happens once per identifier, as the last action of
that identifier's processing, so a cycle whose queries all succeed
contains exactly as many sleeps as identifiers. -/
theorem C3_sleep_once_per_identifier (cfg : Config) (env : String → CrnEnv) :
    (∀ (ls : LastSeen) (crn : String) (seats : Option Int) (raw : String),
        (env crn).query = Except.ok (seats, raw) →
        countSleeps (crnStep cfg (env crn) ls crn).1 = 1 ∧
        ((crnStep cfg (env crn) ls crn).1).getLast? =
          some (Event.sleep cfg.poll_seconds)) ∧
    ∀ (crns : List String) (ls : LastSeen),
      (∀ c ∈ crns, ∃ v, (env c).query = Except.ok v) →
      countSleeps (runCrns cfg env ls crns).1 = crns.length := by
  constructor
  · intro ls crn seats raw hq
    refine ⟨countSleeps_crnStep_ok cfg (env crn) ls crn seats raw hq, ?_⟩
    rw [crnStep_ok cfg (env crn) ls crn seats raw hq]
    rw [show Event.query crn seats ::
          ((if shouldNotify cfg.notify_repeat (dictGet ls crn) seats then
              Event.notify crn ::
                ((if (env crn).emailFails then [Event.emailFail crn]
                  else [Event.emailOk crn]) ++
                 (if (env crn).toastFails then [Event.toastFail crn]
                  else [Event.toastOk crn]))
            else []) ++ [Event.sleep cfg.poll_seconds]) =
          (Event.query crn seats ::
            (if shouldNotify cfg.notify_repeat (dictGet ls crn) seats then
              Event.notify crn ::
                ((if (env crn).emailFails then [Event.emailFail crn]
                  else [Event.emailOk crn]) ++
                 (if (env crn).toastFails then [Event.toastFail crn]
                  else [Event.toastOk crn]))
            else [])) ++ [Event.sleep cfg.poll_seconds] from by simp]
    exact List.getLast?_concat _
  · intro crns
    induction crns with
    | nil => intro ls _; simp [runCrns, countSleeps]
    | cons c rest ih =>
      intro ls h
      obtain ⟨⟨seats, raw⟩, hq⟩ := h c (List.mem_cons_self c rest)
      have hstep := crnStep_ok cfg (env c) ls c seats raw hq
      simp only [runCrns, hstep]
      have hcount := countSleeps_crnStep_ok cfg (env c) ls c seats raw hq
      rw [hstep] at hcount
      simp only [countSleeps, List.countP_append] at hcount ⊢
      rw [hcount]
      have := ih (dictSet ls c seats)
        (fun c' hc' => h c' (List.mem_cons_of_mem c hc'))
      simp only [countSleeps] at this
      rw [this]
      simp [List.length_cons, Nat.add_comm]

theorem C3_witness :
    countSleeps (runCrns cfgC3 envC3 (initLastSeen cfgC3.crns) ["17583", "84113"]).1 = 2 :=
  (C3_sleep_once_per_identifier cfgC3 envC3).2 ["17583", "84113"] _
    (fun _ _ => ⟨(some 0, "0 of 30 seats"), rfl⟩)

/-- C4 counterexample: the blob `"13 of 5 seats"` contains the substring
`"3 of 5 seats"`, yet the parser returns 13, because the leftmost match of
the of-seats pattern starts at the full digit run `13`. -/
theorem C4_counterexample :
    pyInL "3 of 5 seats".data "13 of 5 seats".data = true ∧
    parse_seats_from_any_text "13 of 5 seats" = some 13 ∧ (13 : Int) ≠ 3 :=
  ⟨by decide, by decide, by decide⟩

/-- C4 as amended: rule 1 has absolute precedence — whenever the leftmost
match of the `<N> of <M> seats` pattern in the lowercased blob captures
`N`, the parser returns `N`, and no keyword pattern, capacity/enrolled/
remaining field, or `full`/`closed`/`open` literal elsewhere can preempt
it.  A blob containing `"3 of 5 seats"` therefore yields 3 exactly when no
earlier or overlapping of-seats match changes the capture. -/
theorem C4_rule1_precedence (s : String) (n : Nat)
    (h : searchOfSeats (pyLowerL s.data) = some n) :
    parse_seats_from_any_text s = some (n : Int) := by
  unfold parse_seats_from_any_text parseLowered
  rw [h]

theorem C4_witness :
    parse_seats_from_any_text
      "full open remaining: 7 | capacity: 9 enrolled: 8 remaining: 1 | 3 of 5 seats" =
      some 3 :=
  C4_rule1_precedence
    "full open remaining: 7 | capacity: 9 enrolled: 8 remaining: 1 | 3 of 5 seats" 3
    (by decide)

/-- C5: on a blob matching none of the numeric patterns, the parser
returns 0 when the lowercased blob contains `closed` or `full`, returns 1
when it contains `open` but neither `full` nor `closed`, and returns
`None` when it contains none of the three literals. -/
theorem C5_literal_fallbacks (s : String)
    (h1 : searchOfSeats (pyLowerL s.data) = none)
    (h2 : searchSeatsKV (pyLowerL s.data) = none)
    (h3 : searchCER (pyLowerL s.data) = none) :
    ((pyInL "closed".data (pyLowerL s.data) = true ∨
        pyInL "full".data (pyLowerL s.data) = true) →
      parse_seats_from_any_text s = some 0) ∧
    ((pyInL "open".data (pyLowerL s.data) = true ∧
        pyInL "full".data (pyLowerL s.data) = false ∧
        pyInL "closed".data (pyLowerL s.data) = false) →
      parse_seats_from_any_text s = some 1) ∧
    ((pyInL "full".data (pyLowerL s.data) = false ∧
        pyInL "closed".data (pyLowerL s.data) = false ∧
        pyInL "open".data (pyLowerL s.data) = false) →
      parse_seats_from_any_text s = none) := by
  unfold parse_seats_from_any_text parseLowered
  rw [h1, h2, h3]
  refine ⟨?_, ?_, ?_⟩
  · rintro (hc | hf)
    · simp [hc]
    · simp [hf]
  · rintro ⟨ho, hf, hc⟩
    simp [ho, hf, hc]
  · rintro ⟨hf, hc, ho⟩
    simp [hf, hc, ho]

theorem C5_witness :
    parse_seats_from_any_text "Closed" = some 0 ∧
    parse_seats_from_any_text "Open" = some 1 ∧
    parse_seats_from_any_text "zzz" = none :=
  ⟨(C5_literal_fallbacks "Closed" (by decide) (by decide) (by decide)).1
      (Or.inl (by decide)),
   ((C5_literal_fallbacks "Open" (by decide) (by decide) (by decide)).2).1
      ⟨by decide, by decide, by decide⟩,
   ((C5_literal_fallbacks "zzz" (by decide) (by decide) (by decide)).2).2
      ⟨by decide, by decide, by decide⟩⟩

/-- C6: the row scan equals the first-match specification: rows are
scanned in document order, a row matches when its lowercased harvested
text contains the lowercased identifier as a substring, the first matching
row is parsed (later matches are ignored), and with no matching row the
result is the undetermined reading with an empty blob. -/
theorem C6_first_match_row_scan (rows : List Row) (crn : String) :
    check_one_crn rows crn =
      match rows.find?
          (fun row => pyInL (pyLowerL crn.data) (pyLowerL row.rowText.data)) with
      | some row => parse_row_seats row
      | none => (none, "") := by
  induction rows with
  | nil => rfl
  | cons r rest ih =>
    cases h : pyInL (pyLowerL crn.data) (pyLowerL r.rowText.data) with
    | true => simp [check_one_crn, List.find?, h]
    | false => simp [check_one_crn, List.find?, h, ih]

lemma pyInL_append_right (sub a b : List Char) (h : pyInL sub b = true) :
    pyInL sub (a ++ b) = true := by
  induction a with
  | nil => simpa using h
  | cons c t ih => simp [pyInL, ih]

lemma shimHidden_hideShim (st : String) : shimHidden (hideShim st) = true := by
  unfold shimHidden hideShim pyLowerL
  rw [String.data_append, List.map_append]
  exact pyInL_append_right _ _ _ (by decide)

lemma all_shimHidden_map_hideIfNeeded (l : List String) :
    (l.map hideIfNeeded).all shimHidden = true := by
  induction l with
  | nil => rfl
  | cons st t ih =>
    simp only [List.map_cons, List.all_cons, Bool.and_eq_true]
    refine ⟨?_, ih⟩
    unfold hideIfNeeded
    cases h : shimHidden st with
    | true => simp [h]
    | false => simp [h, shimHidden_hideShim]

lemma map_hideIfNeeded_of_all_hidden (l : List String)
    (h : l.all shimHidden = true) : l.map hideIfNeeded = l := by
  induction l with
  | nil => rfl
  | cons st t ih =>
    simp only [List.all_cons, Bool.and_eq_true] at h
    simp [hideIfNeeded, h.1, ih h.2]

lemma any_not_hidden_of_all (l : List String) (h : l.all shimHidden = true) :
    (l.any fun st => !shimHidden st) = false := by
  induction l with
  | nil => rfl
  | cons st t ih =>
    simp only [List.all_cons, Bool.and_eq_true] at h
    simp [h.1, ih h.2]

lemma clear_overlays_of_noObs (s : PageState) (h : noObstructions s = true) :
    clear_overlays s = (false, s) := by
  obtain ⟨ina, ok, shims⟩ := s
  simp only [noObstructions, Bool.and_eq_true, Bool.not_eq_true', beq_iff_eq] at h
  obtain ⟨⟨h1, h2⟩, h3⟩ := h
  subst h1 h2
  simp [clear_overlays, any_not_hidden_of_all _ h3, map_hideIfNeeded_of_all_hidden _ h3]

lemma noObstructions_clear (s : PageState) :
    noObstructions (clear_overlays s).2 = true := by
  obtain ⟨ina, ok, shims⟩ := s
  show (!false && (0 == 0) && (shims.map hideIfNeeded).all shimHidden) = true
  rw [all_shimHidden_map_hideIfNeeded]
  rfl

def pageW : PageState :=
  { inactivityNoPresent := false, okButtons := 0, shimStyles := ["display: none"] }

def pageW2 : PageState :=
  { inactivityNoPresent := true, okButtons := 2, shimStyles := ["z-index: 5"] }

/-- C7: the Overlay Clearer is idempotent in its reported effect: on a
page state with no remaining obstructions an invocation reports no change
and leaves the state untouched, and immediately after any invocation — in
particular one that cleared everything — a second invocation reports no
change. -/
theorem C7_overlay_clearer_idempotent (s : PageState) :
    (noObstructions s = true → clear_overlays s = (false, s)) ∧
    clear_overlays (clear_overlays s).2 = (false, (clear_overlays s).2) :=
  ⟨clear_overlays_of_noObs s,
   clear_overlays_of_noObs _ (noObstructions_clear s)⟩

theorem C7_witness :
    clear_overlays pageW = (false, pageW) ∧
    clear_overlays (clear_overlays pageW2).2 = (false, (clear_overlays pageW2).2) :=
  ⟨(C7_overlay_clearer_idempotent pageW).1 (by decide),
   (C7_overlay_clearer_idempotent pageW2).2⟩

/-- C8: a failure of the email or toast dispatcher is caught inside the
loop body: whatever the dispatch outcomes, the step completes with the
last-seen entry for the identifier updated to the new reading, and the
cycle proceeds to the remaining identifiers. -/
theorem C8_dispatch_failure_isolated :
    (∀ (cfg : Config) (q : Except Unit (Option Int × String)) (ef tf : Bool)
        (ls : LastSeen) (crn : String) (seats : Option Int) (raw : String),
        q = Except.ok (seats, raw) →
        (crnStep cfg { query := q, emailFails := ef, toastFails := tf } ls crn).2 =
          Except.ok (dictSet ls crn seats)) ∧
    (∀ (cfg : Config) (env : String → CrnEnv) (ls : LastSeen) (crn : String)
        (rest : List String) (seats : Option Int) (raw : String),
        (env crn).query = Except.ok (seats, raw) →
        (runCrns cfg env ls (crn :: rest)).2 =
          (runCrns cfg env (dictSet ls crn seats) rest).2) := by
  constructor
  · intro cfg q ef tf ls crn seats raw hq
    subst hq
    rfl
  · intro cfg env ls crn rest seats raw hq
    have hstep := crnStep_ok cfg (env crn) ls crn seats raw hq
    simp [runCrns, hstep]

theorem C8_witness :
    (crnStep cfgW
        { query := Except.ok (some 2, "2 of 5 seats"), emailFails := true,
          toastFails := true } [("302", some 5)] "302").2 =
      Except.ok [("302", some (2 : Int))] :=
  C8_dispatch_failure_isolated.1 cfgW _ true true [("302", some 5)] "302" (some 2)
    "2 of 5 seats" rfl

lemma runCrns_threshold_invariant (cfg : Config) (t : Int) (env : String → CrnEnv) :
    ∀ (l : List String) (ls : LastSeen),
      runCrns { cfg with max_errors_before_restart := t } env ls l =
        runCrns cfg env ls l := by
  intro l
  induction l with
  | nil => intro ls; rfl
  | cons c rest ih =>
    intro ls
    have hstep : crnStep { cfg with max_errors_before_restart := t } (env c) ls c =
        crnStep cfg (env c) ls c := rfl
    simp only [runCrns, hstep]
    cases hc : crnStep cfg (env c) ls c with
    | mk evs r =>
      cases r with
      | error u => rfl
      | ok ls2 => simp [ih ls2]

def cfgC9 (t : Int) : Config :=
  { crns := ["11111", "22222"], poll_seconds := 60, max_errors_before_restart := t,
    keep_page_awake_minutes := 10, notify_repeat := false }

def envC9 : String → CrnEnv := fun c =>
  if c == "11111" then
    { query := Except.error (), emailFails := false, toastFails := false }
  else
    { query := Except.ok (some 4, "4 of 10 seats"), emailFails := false, toastFails := false }

/-- C9 counterexample: at a concrete input whose first query fails —
exactly the situation a consecutive-failure counter would have to count —
the monitor loop behaves identically under two different values of the
maximum-errors-before-restart threshold, so the loaded threshold is never
consulted and no failure counter feeds it. -/
theorem C9_counterexample :
    runCycle (cfgC9 0) envC9 (initLastSeen (cfgC9 0).crns) =
      runCycle (cfgC9 8) envC9 (initLastSeen (cfgC9 8).crns) ∧
    (cfgC9 0).max_errors_before_restart ≠ (cfgC9 8).max_errors_before_restart :=
  ⟨rfl, by decide⟩

/-- C9 as amended: `load_config` reads the maximum-errors-before-restart
value into the configuration record, but the monitor loop maintains no
consecutive-failure counter and never consults the threshold: the loop's
entire observable behavior is invariant under any change to it. -/
theorem C9_threshold_never_consulted (cfg : Config) (t : Int)
    (env : String → CrnEnv) (ls : LastSeen) :
    runCycle { cfg with max_errors_before_restart := t } env ls =
      runCycle cfg env ls := by
  unfold runCycle
  exact runCrns_threshold_invariant cfg t env cfg.crns ls

lemma parseLowered_nonneg (t : List Char) :
    readingNonnegB (parseLowered t) = true := by
  unfold parseLowered
  cases h1 : searchOfSeats t with
  | some n => simp [readingNonnegB, Int.natCast_nonneg]
  | none =>
    cases h2 : searchSeatsKV t with
    | some n => simp [readingNonnegB, Int.natCast_nonneg]
    | none =>
      cases h3 : searchCER t with
      | some n => simp [readingNonnegB, Int.natCast_nonneg]
      | none =>
        by_cases h4 : (pyInL "full".data t || pyInL "closed".data t) = true
        · simp [h4, readingNonnegB]
        · rw [Bool.not_eq_true] at h4
          by_cases h5 : pyInL "open".data t = true
          · simp [h4, h5, readingNonnegB]
          · rw [Bool.not_eq_true] at h5
            simp [h4, h5, readingNonnegB]

lemma check_one_crn_nonneg (rows : List Row) (crn : String) :
    readingNonnegB (check_one_crn rows crn).1 = true := by
  induction rows with
  | nil => rfl
  | cons r rest ih =>
    by_cases h : pyInL (pyLowerL crn.data) (pyLowerL r.rowText.data) = true
    · simp only [check_one_crn, h, if_true, parse_row_seats]
      exact parseLowered_nonneg _
    · rw [Bool.not_eq_true] at h
      simp [check_one_crn, h, ih]

lemma stateNonnegB_dictSet (ls : LastSeen) (k : String) (v : Option Int)
    (hls : stateNonnegB ls = true) (hv : readingNonnegB v = true) :
    stateNonnegB (dictSet ls k v) = true := by
  induction ls with
  | nil => simp [dictSet, stateNonnegB, hv]
  | cons p t ih =>
    simp only [stateNonnegB, List.all_cons, Bool.and_eq_true] at hls
    by_cases h : (p.1 == k) = true
    · simp [dictSet, h, stateNonnegB, List.all_cons, hv, hls.2]
    · rw [Bool.not_eq_true] at h
      simp only [dictSet, h, Bool.false_eq_true, if_false]
      simp only [stateNonnegB, List.all_cons, Bool.and_eq_true]
      exact ⟨hls.1, ih hls.2⟩

lemma initLastSeen_nonneg (crns : List String) :
    stateNonnegB (initLastSeen crns) = true := by
  induction crns with
  | nil => rfl
  | cons c t ih =>
    simp only [initLastSeen, List.map_cons, stateNonnegB, List.all_cons,
      Bool.and_eq_true]
    exact ⟨rfl, ih⟩

lemma runCrns_preserves_nonneg (cfg : Config) (env : String → CrnEnv)
    (hq : ∀ c, queryFromRows (env c).query c) :
    ∀ (l : List String) (ls ls2 : LastSeen), stateNonnegB ls = true →
      (runCrns cfg env ls l).2 = Except.ok ls2 → stateNonnegB ls2 = true := by
  intro l
  induction l with
  | nil =>
    intro ls ls2 h hr
    simp only [runCrns] at hr
    cases hr
    exact h
  | cons c rest ih =>
    intro ls ls2 h hr
    rcases hq c with hqe | ⟨rows, hqo⟩
    · simp [runCrns, crnStep, hqe] at hr
    · rcases hp : check_one_crn rows c with ⟨seats, raw⟩
      rw [hp] at hqo
      have hstep := crnStep_ok cfg (env c) ls c seats raw hqo
      simp only [runCrns, hstep] at hr
      have hseats : readingNonnegB seats = true := by
        have hnn := check_one_crn_nonneg rows c
        rw [hp] at hnn
        exact hnn
      exact ih (dictSet ls c seats) ls2 (stateNonnegB_dictSet ls c seats h hseats) hr

lemma runCycles_preserves_nonneg (cfg : Config) (envs : Nat → String → CrnEnv)
    (hq : ∀ i c, queryFromRows ((envs i) c).query c) :
    ∀ (n : Nat) (ls ls2 : LastSeen), stateNonnegB ls = true →
      runCycles cfg envs n ls = Except.ok ls2 → stateNonnegB ls2 = true := by
  intro n
  induction n with
  | zero =>
    intro ls ls2 h hr
    simp only [runCycles] at hr
    cases hr
    exact h
  | succ m ih =>
    intro ls ls2 h hr
    simp only [runCycles] at hr
    cases hc : (runCycle cfg (envs m) ls).2 with
    | error u => rw [hc] at hr; cases hr
    | ok mid =>
      rw [hc] at hr
      exact ih mid ls2
        (runCrns_preserves_nonneg cfg (envs m) (hq m) cfg.crns ls mid h hc) hr

/-- C10: the Availability Parser only ever returns `None` or a
non-negative count, and consequently every value stored in the
Last-Known-State Map over any run of the monitor loop whose readings come
from the row scan is `None` or a non-negative integer. -/
theorem C10_parser_nonneg_invariant :
    (∀ s : String, readingNonnegB (parse_seats_from_any_text s) = true) ∧
    ∀ (cfg : Config) (envs : Nat → String → CrnEnv) (n : Nat) (ls2 : LastSeen),
      (∀ i c, queryFromRows ((envs i) c).query c) →
      runCycles cfg envs n (initLastSeen cfg.crns) = Except.ok ls2 →
      stateNonnegB ls2 = true :=
  ⟨fun s => parseLowered_nonneg (pyLowerL s.data),
   fun cfg envs n ls2 hq hr =>
     runCycles_preserves_nonneg cfg envs hq n (initLastSeen cfg.crns) ls2
       (initLastSeen_nonneg cfg.crns) hr⟩

def rowsW : List Row :=
  [{ rowText := "CRN 12345", tdTexts := ["3 of 5 seats"], badgeTexts := [] }]

def envsW : Nat → String → CrnEnv := fun _ c =>
  { query := Except.ok (check_one_crn rowsW c), emailFails := false, toastFails := false }

def cfgC10 : Config :=
  { crns := ["12345"], poll_seconds := 60, max_errors_before_restart := 8,
    keep_page_awake_minutes := 10, notify_repeat := false }

theorem C10_witness :
    readingNonnegB (parse_seats_from_any_text "no seat info here") = true ∧
    stateNonnegB [("12345", some (3 : Int))] = true :=
  ⟨C10_parser_nonneg_invariant.1 "no seat info here",
   C10_parser_nonneg_invariant.2 cfgC10 envsW 1 [("12345", some 3)]
     (fun _ _ => Or.inr ⟨rowsW, rfl⟩) rfl⟩
